import Mathlib

/-!
# Territory & Resource Economy Engine — verification development

Shallow embedding of the MapGo territory/resource engine, translated from
`src/utils/h3.ts` (economy arithmetic, grid adapter validation) and
`src/hooks/useGameState.ts` (conquest, collection, base management and the
maintenance tick).  JavaScript numbers that hold real values (collection
fractions, elapsed hours, health, score) are modelled as `ℚ`; counters and
timestamps (milliseconds) are `ℤ`/`ℕ`.  The IndexedDB store and the React
hook state are kept in lock-step by the source, so both are collapsed into
a single `GameState`.
-/

/-- Model of `ResourceInventory` from `types`: three integer counters. -/
structure ResourceInventory where
  wood : Int
  iron : Int
  stone : Int
deriving DecidableEq, Repr

/-- Model of `ResourceCost`: partial view of the three counters.  A missing
field is `none`; the source reads each field as `cost.f || 0`. -/
structure ResourceCost where
  wood : Option Int := none
  iron : Option Int := none
  stone : Option Int := none
deriving DecidableEq, Repr

/-- Model of `ResourceType` (`'wood' | 'iron' | 'stone'`). -/
inductive ResourceType where
  | wood
  | iron
  | stone
deriving DecidableEq, Repr

/-- Function `getResourceBaseAmount` (`h3.ts`): base spawn amount per type.
The source's `default` branch is unreachable: the union type is
exhaustive. -/
def getResourceBaseAmount : ResourceType → Nat
  | .wood => 50
  | .iron => 30
  | .stone => 40

/-- Function `getResourceRegenRate` (`h3.ts`): regeneration per hour. -/
def getResourceRegenRate : ResourceType → Nat
  | .wood => 10
  | .iron => 5
  | .stone => 8

/-- Function `hasEnoughResources` (`h3.ts`): every inventory counter is at
least the corresponding cost field, a missing cost field read as `0`. -/
def hasEnoughResources (playerResources : ResourceInventory)
    (requiredResources : ResourceCost) : Bool :=
  decide (requiredResources.wood.getD 0 ≤ playerResources.wood) &&
  decide (requiredResources.iron.getD 0 ≤ playerResources.iron) &&
  decide (requiredResources.stone.getD 0 ≤ playerResources.stone)

/-- Function `subtractResources` (`h3.ts`): unchecked field-wise debit. -/
def subtractResources (playerResources : ResourceInventory)
    (cost : ResourceCost) : ResourceInventory :=
  { wood := playerResources.wood - cost.wood.getD 0
    iron := playerResources.iron - cost.iron.getD 0
    stone := playerResources.stone - cost.stone.getD 0 }

/-- Function `addResources` (`h3.ts`): field-wise credit, no upper bound. -/
def addResources (playerResources : ResourceInventory)
    (resources : ResourceCost) : ResourceInventory :=
  { wood := playerResources.wood + resources.wood.getD 0
    iron := playerResources.iron + resources.iron.getD 0
    stone := playerResources.stone + resources.stone.getD 0 }

/-- Read one counter of an inventory by resource type (used to state how a
collection credits the counter of the zone's type). -/
def ResourceInventory.get (inv : ResourceInventory) : ResourceType → Int
  | .wood => inv.wood
  | .iron => inv.iron
  | .stone => inv.stone

/-- The singleton cost object `{[resourceType]: amount}` built in
`collectResources` (`useGameState.ts`). -/
def singleResourceCost (t : ResourceType) (n : Int) : ResourceCost :=
  match t with
  | .wood => { wood := some n }
  | .iron => { iron := some n }
  | .stone => { stone := some n }

/-- Model of `ResourceZone` from `types`: a harvestable deposit keyed by
its cell id.  `lastRegeneration` is a millisecond timestamp. -/
structure ResourceZone where
  id : String
  resourceType : ResourceType
  amount : Int
  regenerationRate : Nat
  lastRegeneration : Nat
deriving DecidableEq, Repr

/-- Zone regeneration, one zone of the maintenance interval's map
(`useGameState.ts`, maintenance `setInterval`): elapsed hours strictly
below one leave the zone untouched; otherwise the amount grows by
`Math.floor(regenerationRate * hoursElapsed)` clamped to twice the type's
base amount, and the window restarts at `now`. -/
def regenerateZone (now : Nat) (zone : ResourceZone) : ResourceZone :=
  let hoursElapsed : ℚ :=
    ((now : ℚ) - (zone.lastRegeneration : ℚ)) / (1000 * 60 * 60)
  if 1 ≤ hoursElapsed then
    let regenAmount : Int := ⌊(zone.regenerationRate : ℚ) * hoursElapsed⌋
    let maxAmount : Int := (getResourceBaseAmount zone.resourceType : Int) * 2
    { zone with
      amount := min (zone.amount + regenAmount) maxAmount
      lastRegeneration := now }
  else
    zone

/-- Model of `PlayerPosition` from `types` (capture timestamp and accuracy
are not read by the engine's transitions and are omitted). -/
structure PlayerPosition where
  latitude : ℚ
  longitude : ℚ
deriving DecidableEq, Repr

/-- The base object built by `establishBase` (`useGameState.ts`). -/
structure PlayerBase where
  id : String
  playerId : String
  level : Nat
  health : Int
  maxHealth : Int
  lastMaintenance : Nat
  resourceGeneration : ResourceInventory
  maintenanceCost : ResourceInventory
deriving DecidableEq, Repr

/-- Model of `HexagonData`: the per-cell territory record held in the
`hexagons` store.  Optional fields default to absent, as in the source. -/
structure HexagonData where
  id : String
  conquered : Bool
  conqueredBy : Option String := none
  conqueredAt : Option Nat := none
  center : ℚ × ℚ := (0, 0)
  conquestCost : Option ResourceCost := none
  maintenanceCost : Option ResourceCost := none
  base : Option PlayerBase := none
deriving DecidableEq, Repr

/-- Model of `PlayerState` from `types` (second revision, with `resources`
and `baseHexagon` both optional). -/
structure PlayerState where
  id : String
  health : ℚ
  score : ℚ
  level : Nat
  resources : Option ResourceInventory
  baseHexagon : Option String
deriving DecidableEq, Repr

/-- The engine state mutated by `useGameState`.  The source mirrors every
update into both the React hook state and the IndexedDB store, so a single
copy models both; `hexagons` is the keyed territory store, `zones` the
resource-zone store. -/
structure GameState where
  player : PlayerState
  hexagons : String → Option HexagonData
  zones : List ResourceZone
  currentHexagon : Option String
  position : Option PlayerPosition

/-- Callback `updatePlayerHealth` (`useGameState.ts`): rebuilds the player
from the captured snapshot with the health clamped into `[0, 100]`. -/
def updatePlayerHealth (playerState : PlayerState) (health : ℚ) : PlayerState :=
  { playerState with health := max 0 (min 100 health) }

/-- Callback `updatePlayerScore` (`useGameState.ts`): rebuilds the player
from the captured snapshot with the score clamped to be nonnegative. -/
def updatePlayerScore (playerState : PlayerState) (score : ℚ) : PlayerState :=
  { playerState with score := max 0 score }

/-- Command `conquerCurrentHexagon` (`useGameState.ts`).  On success the
source debits the conquest cost (persisting it and applying it with a
functional state update), writes the conquered record (`conquerHexagon` in
`indexedDB.ts` builds a fresh record), and finally awaits
`updatePlayerScore(playerState.score + 10)`.  That callback closes over the
render-time snapshot of `playerState` — the same snapshot this function
reads — so the state it rebuilds and saves carries the snapshot's pre-debit
`resources`; the debit is overwritten.  The model threads the snapshot
`s.player` into `updatePlayerScore` accordingly. -/
def conquerCurrentHexagon (now : Nat) (s : GameState) : GameState × Bool :=
  match s.currentHexagon, s.position with
  | some currentHexagon, some position =>
    if ((s.hexagons currentHexagon).map HexagonData.conquered).getD false then
      (s, false)
    else
      let conquestCost : ResourceCost :=
        { wood := some 10, iron := some 5, stone := some 8 }
      let currentResources := s.player.resources.getD ⟨0, 0, 0⟩
      if hasEnoughResources currentResources conquestCost then
        let newResources := subtractResources currentResources conquestCost
        let s1 := { s with player := { s.player with resources := some newResources } }
        let hexagonData : HexagonData :=
          { id := currentHexagon
            conquered := true
            conqueredBy := some s.player.id
            conqueredAt := some now
            center := (position.longitude, position.latitude)
            conquestCost := some { wood := some 10, iron := some 5, stone := some 8 }
            maintenanceCost := some { wood := some 2, iron := some 1, stone := some 2 } }
        let s2 := { s1 with
          hexagons := fun k =>
            if k = currentHexagon then some hexagonData else s1.hexagons k }
        let s3 := { s2 with
          player := updatePlayerScore s.player (s.player.score + 10) }
        (s3, true)
      else (s, false)
  | _, _ => (s, false)

/-- Command `collectResources` (`useGameState.ts`).  The parameter
`collectionRate` stands for the drawn fraction `0.1 + Math.random() * 0.2`,
hence a value in `[0.1, 0.3)`; `now` is the clock reading used for the
`lastRegeneration` reset. -/
def collectResources (hexagonId : String) (collectionRate : ℚ) (now : Nat)
    (s : GameState) : GameState × Bool :=
  match s.zones.find? (fun z => z.id == hexagonId) with
  | none => (s, false)
  | some resourceZone =>
    if resourceZone.amount ≤ 0 then (s, false)
    else
      let collectedAmount : Int := ⌊(resourceZone.amount : ℚ) * collectionRate⌋
      if collectedAmount ≤ 0 then (s, false)
      else
        let currentResources := s.player.resources.getD ⟨0, 0, 0⟩
        let newResources := addResources currentResources
          (singleResourceCost resourceZone.resourceType collectedAmount)
        let updatedZone := { resourceZone with
          amount := resourceZone.amount - collectedAmount
          lastRegeneration := now }
        ({ s with
            player := { s.player with resources := some newResources }
            zones := s.zones.map fun zone =>
              if zone.id == hexagonId then updatedZone else zone }, true)

/-- Command `establishBase` (`useGameState.ts`).  The source checks
conquest, the single-base rule and affordability, debits the cost and
records the base cell on the player.  It then constructs `updatedHexData`,
whose `base` field is the level-1 base, but never passes it to
`saveHexagon`: the `hexagons` store keeps its old record, which the model
mirrors by dropping the constructed value. -/
def establishBase (hexagonId : String) (now : Nat) (s : GameState) :
    GameState × Bool :=
  match s.hexagons hexagonId with
  | none => (s, false)
  | some hexData =>
    if !hexData.conquered then (s, false)
    else if s.player.baseHexagon.isSome then (s, false)
    else
      let baseCost : ResourceCost :=
        { wood := some 30, iron := some 20, stone := some 25 }
      let currentResources := s.player.resources.getD ⟨0, 0, 0⟩
      if hasEnoughResources currentResources baseCost then
        let newResources := subtractResources currentResources baseCost
        let _updatedHexData : HexagonData :=
          { hexData with
            base := some
              { id := hexagonId
                playerId := s.player.id
                level := 1
                health := 100
                maxHealth := 100
                lastMaintenance := now
                resourceGeneration := ⟨5, 3, 4⟩
                maintenanceCost := ⟨2, 1, 2⟩ } }
        ({ s with player := { s.player with
            resources := some newResources
            baseHexagon := some hexagonId } }, true)
      else (s, false)

/-- Command `upgradeBase` (`useGameState.ts`).  The source checks ownership
(`playerState.baseHexagon !== hexagonId`), the presence of a base below
level 2, and affordability of the upgrade cost; on success it deducts the
cost and returns `true`.  No write of the upgraded base record follows, so
the stored base keeps its level. -/
def upgradeBase (hexagonId : String) (s : GameState) : GameState × Bool :=
  if s.player.baseHexagon ≠ some hexagonId then (s, false)
  else
    match (s.hexagons hexagonId).bind HexagonData.base with
    | none => (s, false)
    | some base =>
      if 2 ≤ base.level then (s, false)
      else
        let upgradeCost : ResourceCost :=
          { wood := some 50, iron := some 30, stone := some 40 }
        let currentResources := s.player.resources.getD ⟨0, 0, 0⟩
        if hasEnoughResources currentResources upgradeCost then
          let newResources := subtractResources currentResources upgradeCost
          ({ s with player :=
              { s.player with resources := some newResources } }, true)
        else (s, false)

/-- One pass of the maintenance `setInterval` (`useGameState.ts`): every
zone is regenerated, then, when the player has a base cell and a resource
inventory, either maintenance is debited and the base production credited
(in that order), or — when maintenance is unaffordable — only a warning is
logged; base loss is an unimplemented TODO. -/
def maintenanceTick (now : Nat) (s : GameState) : GameState :=
  let s1 := { s with zones := s.zones.map (regenerateZone now) }
  match s1.player.baseHexagon, s1.player.resources with
  | some _, some resources =>
    let maintenanceCost : ResourceCost :=
      { wood := some 2, iron := some 1, stone := some 2 }
    if hasEnoughResources resources maintenanceCost then
      let newResources := subtractResources resources maintenanceCost
      let baseProduction : ResourceCost :=
        { wood := some 5, iron := some 3, stone := some 4 }
      let finalResources := addResources newResources baseProduction
      { s1 with player := { s1.player with resources := some finalResources } }
    else s1
  | _, _ => s1

/-- The zone-mutating commands a session interleaves: user collections and
clock ticks. -/
inductive GameOp where
  | collect (hexagonId : String) (collectionRate : ℚ) (now : Nat)
  | tick (now : Nat)

/-- Apply one command to the state (the source discards the boolean result
of a collection for state purposes). -/
def applyOp (op : GameOp) (s : GameState) : GameState :=
  match op with
  | .collect hexagonId rate now => (collectResources hexagonId rate now s).1
  | .tick now => maintenanceTick now s

/-- Run a finite command sequence. -/
def runOps (ops : List GameOp) (s : GameState) : GameState :=
  ops.foldl (fun s op => applyOp op s) s

/-- A collection command carries a fraction below one (the source draws it
from `[0.1, 0.3)`); ticks carry no data constraint. -/
def GameOp.valid : GameOp → Prop
  | .collect _ rate _ => rate < 1
  | .tick _ => True

/-- The zone bound of claim C3: every stored zone holds an amount within
`[0, 2 · baseAmount]`. -/
def ZonesInv (s : GameState) : Prop :=
  ∀ z ∈ s.zones, 0 ≤ z.amount ∧
    z.amount ≤ 2 * (getResourceBaseAmount z.resourceType : Int)

/-- A JavaScript number as classified by the coordinate validation of
`getH3Index` (`h3.ts`): NaN, one of the two infinities, or a real value. -/
inductive JSNum where
  | nan
  | posInf
  | negInf
  | finite (q : ℚ)
deriving DecidableEq, Repr

/-- JavaScript's `isNaN` on such a number: true only on NaN — in
particular, false on both infinities. -/
def JSNum.isNaN : JSNum → Bool
  | .nan => true
  | _ => false

/-- Modelled from the spec: the external Hex Grid Index's
cell-ID-from-coordinate, `latLngToCell` of the `h3-js` dependency, which
is not part of this repository.  The spec's interface (§4.2, §6) only
promises a cell identifier for real coordinates at a supported
resolution; the identifier's content is irrelevant to the adapter's error
classification and is abstracted to a fixed non-empty string, and the
library is modelled as throwing (`none`) on non-finite input. -/
def latLngToCell (lat lng : JSNum) (_resolution : Int) : Option String :=
  match lat, lng with
  | .finite _, .finite _ => some ("cell")
  | _, _ => none

/-- The distinct failures raised inside `getH3Index` (`h3.ts`) before its
catch-all wrapper rethrows: the invalid-coordinates throw, the
invalid-resolution throw, the empty-index throw, and a throw escaping the
underlying library call. -/
inductive H3Error where
  | invalidCoordinates
  | invalidResolution
  | invalidIndex
  | libraryFailure
deriving DecidableEq, Repr

/-- Function `getH3Index` (`h3.ts`): validates the coordinates with
`isNaN`, the resolution against `0..15`, calls the index, and rejects an
empty result. -/
def getH3Index (lat lng : JSNum) (resolution : Int) : Except H3Error String :=
  if lat.isNaN || lng.isNaN then .error .invalidCoordinates
  else if resolution < 0 || 15 < resolution then .error .invalidResolution
  else
    match latLngToCell lat lng resolution with
    | none => .error .libraryFailure
    | some h3Index =>
      if h3Index.length == 0 then .error .invalidIndex else .ok h3Index

/-- Player of claim C4's starved scenario: inventory `{1, 1, 1}` and a
recorded base cell. -/
def starvedPlayer : PlayerState :=
  { id := "main-player"
    health := 100
    score := 0
    level := 1
    resources := some ⟨1, 1, 1⟩
    baseHexagon := some ("base-cell") }

/-- State of claim C4's starved scenario. -/
def starvedState : GameState :=
  { player := starvedPlayer
    hexagons := fun _ => none
    zones := []
    currentHexagon := none
    position := none }

/-- State of claim C7's concrete collection: a wood zone of amount 50 and
an empty inventory. -/
def woodZoneState : GameState :=
  { player :=
      { id := "main-player"
        health := 100
        score := 0
        level := 1
        resources := some ⟨0, 0, 0⟩
        baseHexagon := none }
    hexagons := fun _ => none
    zones := [⟨"zoneA", .wood, 50, 10, 0⟩]
    currentHexagon := none
    position := none }

/-- Player of the double-conquest scenario: inventory `{50, 30, 40}`,
score 100. -/
def conquestPlayer : PlayerState :=
  { id := "main-player"
    health := 100
    score := 100
    level := 1
    resources := some ⟨50, 30, 40⟩
    baseHexagon := none }

/-- State of the double-conquest scenario: the current cell has no record
(synthetic unconquered default). -/
def conquestState : GameState :=
  { player := conquestPlayer
    hexagons := fun _ => none
    zones := []
    currentHexagon := some ("cell-0")
    position := some ⟨0, 0⟩ }

/-- Player about to establish a base: inventory exactly the establishment
cost `{30, 20, 25}`, no base yet. -/
def establishPlayer : PlayerState :=
  { id := "main-player"
    health := 100
    score := 0
    level := 1
    resources := some ⟨30, 20, 25⟩
    baseHexagon := none }

/-- A conquered cell record without a base. -/
def conqueredCell : HexagonData :=
  { id := "cell-1"
    conquered := true
    conqueredBy := some ("main-player")
    conqueredAt := some 0
    conquestCost := some { wood := some 10, iron := some 5, stone := some 8 }
    maintenanceCost := some { wood := some 2, iron := some 1, stone := some 2 } }

/-- State in which establishing a base on cell-1 has every precondition. -/
def establishState : GameState :=
  { player := establishPlayer
    hexagons := fun k => if k = "cell-1" then some conqueredCell else none
    zones := []
    currentHexagon := some ("cell-1")
    position := none }

/-- Player owning the base at cell-1 with inventory exactly the upgrade
cost `{50, 30, 40}`. -/
def upgradePlayer : PlayerState :=
  { id := "main-player"
    health := 100
    score := 0
    level := 1
    resources := some ⟨50, 30, 40⟩
    baseHexagon := some ("cell-1") }

/-- A conquered cell record carrying a level-1 base. -/
def baseCell : HexagonData :=
  { conqueredCell with
    base := some
      { id := "cell-1"
        playerId := "main-player"
        level := 1
        health := 100
        maxHealth := 100
        lastMaintenance := 0
        resourceGeneration := ⟨5, 3, 4⟩
        maintenanceCost := ⟨2, 1, 2⟩ } }

/-- State in which upgrading the base at cell-1 has every precondition. -/
def upgradeState : GameState :=
  { player := upgradePlayer
    hexagons := fun k => if k = "cell-1" then some baseCell else none
    zones := []
    currentHexagon := some ("cell-1")
    position := none }

/-- Claim C8: `hasEnoughResources I C` is true iff each counter of `I` is at
least the corresponding field of `C`, with a field absent from `C` treated
as `0`. -/
theorem hasEnoughResources_iff (I : ResourceInventory) (C : ResourceCost) :
    hasEnoughResources I C = true ↔
      C.wood.getD 0 ≤ I.wood ∧ C.iron.getD 0 ≤ I.iron ∧
        C.stone.getD 0 ≤ I.stone := by
  simp [hasEnoughResources, and_assoc]

/-- Concrete reading of claim C8: the scenario inventory `{50, 30, 40}`
affords the conquest cost `{10, 5, 8}`. -/
theorem hasEnoughResources_witness :
    hasEnoughResources ⟨50, 30, 40⟩
      { wood := some 10, iron := some 5, stone := some 8 } = true :=
  (hasEnoughResources_iff ⟨50, 30, 40⟩
    { wood := some 10, iron := some 5, stone := some 8 }).mpr
    (by decide)

/-- Claim C2: with elapsed hours `(now − lastRegeneration)/3600s` strictly
less than one the zone is completely unchanged; with hours at least one the
amount becomes `min (amount + ⌊regenerationRate · hours⌋) (2 · baseAmount)`
and `lastRegeneration` becomes `now`, where the base amounts are wood 50,
iron 30, stone 40. -/
theorem regenerateZone_spec (zone : ResourceZone) (now : Nat) :
    (((now : ℚ) - (zone.lastRegeneration : ℚ)) / 3600000 < 1 →
      regenerateZone now zone = zone) ∧
    (1 ≤ ((now : ℚ) - (zone.lastRegeneration : ℚ)) / 3600000 →
      regenerateZone now zone =
        { zone with
          amount := min
            (zone.amount +
              ⌊(zone.regenerationRate : ℚ) *
                (((now : ℚ) - (zone.lastRegeneration : ℚ)) / 3600000)⌋)
            (2 * (getResourceBaseAmount zone.resourceType : Int))
          lastRegeneration := now }) ∧
    (getResourceBaseAmount .wood = 50 ∧ getResourceBaseAmount .iron = 30 ∧
      getResourceBaseAmount .stone = 40) := by
  refine ⟨fun h => ?_, fun h => ?_, rfl, rfl, rfl⟩
  · rw [regenerateZone, if_neg]
    · intro h1
      norm_num at h h1
      exact absurd h1 (not_le.mpr h)
  · rw [regenerateZone, if_pos]
    · rw [mul_comm (getResourceBaseAmount zone.resourceType : Int) 2]
      norm_num
    · norm_num at h ⊢
      exact h

/-- Concrete runs of claim C2: one sub-hour elapse (no-op) and one exact
one-hour elapse of a wood zone (`50 + ⌊10 · 1⌋ = 60 ≤ 100`). -/
theorem regenerateZone_witness :
    regenerateZone 1000 ⟨"zoneW", .wood, 50, 10, 0⟩ =
        ⟨"zoneW", .wood, 50, 10, 0⟩ ∧
      regenerateZone 3600000 ⟨"zoneW", .wood, 50, 10, 0⟩ =
        ⟨"zoneW", .wood, 60, 10, 3600000⟩ := by
  constructor
  · exact (regenerateZone_spec ⟨"zoneW", .wood, 50, 10, 0⟩ 1000).1 (by norm_num)
  · have h := (regenerateZone_spec ⟨"zoneW", .wood, 50, 10, 0⟩ 3600000).2.1
      (by norm_num)
    rw [h]
    simp only [getResourceBaseAmount, ResourceZone.mk.injEq]
    norm_num

/-- Claim C10: `updatePlayerHealth` stores the health clamped into
`[0, 100]` and `updatePlayerScore` stores the score clamped to be
nonnegative, for every current player state and numeric input. -/
theorem updatePlayer_clamped (p : PlayerState) (health score : ℚ) :
    (updatePlayerHealth p health).health = max 0 (min 100 health) ∧
    0 ≤ (updatePlayerHealth p health).health ∧
    (updatePlayerHealth p health).health ≤ 100 ∧
    (updatePlayerScore p score).score = max 0 score ∧
    0 ≤ (updatePlayerScore p score).score := by
  refine ⟨rfl, le_max_left _ _, ?_, rfl, le_max_left _ _⟩
  exact max_le (by norm_num) (min_le_left _ _)

/-- Claim C4: when the player has a base cell and an inventory, a
maintenance cycle with an affordable maintenance cost `{2, 1, 2}` leaves
the net inventory `inventory − maintenance + production` with production
`{5, 3, 4}`; an unaffordable one changes neither the player (inventory,
base cell) nor the territory records. -/
theorem maintenanceTick_base_spec (s : GameState) (now : Nat)
    (res : ResourceInventory)
    (hbase : s.player.baseHexagon.isSome)
    (hres : s.player.resources = some res) :
    (hasEnoughResources res { wood := some 2, iron := some 1, stone := some 2 } = true →
      (maintenanceTick now s).player = { s.player with
        resources := some (addResources
          (subtractResources res { wood := some 2, iron := some 1, stone := some 2 })
          { wood := some 5, iron := some 3, stone := some 4 }) }) ∧
    (hasEnoughResources res { wood := some 2, iron := some 1, stone := some 2 } = false →
      (maintenanceTick now s).player = s.player ∧
      (maintenanceTick now s).hexagons = s.hexagons) := by
  obtain ⟨b, hb⟩ := Option.isSome_iff_exists.mp hbase
  constructor
  · intro h
    simp [maintenanceTick, hb, hres, h]
  · intro h
    simp [maintenanceTick, hb, hres, h]

/-- Concrete run of claim C4's starved scenario: inventory `{1, 1, 1}`
cannot pay maintenance `{2, 1, 2}`, and one cycle leaves the player
unchanged. -/
theorem maintenanceTick_base_witness :
    hasEnoughResources ⟨1, 1, 1⟩
        { wood := some 2, iron := some 1, stone := some 2 } = false ∧
      (maintenanceTick 60000 starvedState).player = starvedPlayer :=
  ⟨by decide,
    ((maintenanceTick_base_spec starvedState 60000 ⟨1, 1, 1⟩ (by decide)
      rfl).2 (by decide)).1⟩

/-- Claim C7: collecting from a zone whose amount is not positive is a
no-op; otherwise, for a drawn fraction `q ∈ [0.1, 0.3)`, the collected
amount is `⌊amount · q⌋`, and when it is positive the zone's amount drops
by it, the inventory counter of the zone's type rises by it (others
unchanged), and the zone's regeneration window restarts at `now`; a
non-positive collected amount is again a no-op. -/
theorem collectResources_spec (s : GameState) (hexagonId : String) (q : ℚ)
    (now : Nat) (z : ResourceZone)
    (_hq : 1/10 ≤ q ∧ q < 3/10)
    (hz : s.zones.find? (fun w => w.id == hexagonId) = some z) :
    (z.amount ≤ 0 → collectResources hexagonId q now s = (s, false)) ∧
    (0 < z.amount → ⌊(z.amount : ℚ) * q⌋ ≤ 0 →
      collectResources hexagonId q now s = (s, false)) ∧
    (0 < z.amount → 0 < ⌊(z.amount : ℚ) * q⌋ →
      (collectResources hexagonId q now s).2 = true ∧
      (collectResources hexagonId q now s).1.zones =
        s.zones.map (fun w => if w.id == hexagonId then
          { z with amount := z.amount - ⌊(z.amount : ℚ) * q⌋,
                   lastRegeneration := now } else w) ∧
      ∀ t, ((collectResources hexagonId q now s).1.player.resources.getD
          ⟨0, 0, 0⟩).get t =
        (s.player.resources.getD ⟨0, 0, 0⟩).get t +
          (if t = z.resourceType then ⌊(z.amount : ℚ) * q⌋ else 0)) := by
  refine ⟨fun h1 => ?_, fun h1 h2 => ?_, fun h1 h2 => ?_⟩
  · simp [collectResources, hz, h1]
  · simp [collectResources, hz, not_le.mpr h1, h2]
  · refine ⟨?_, ?_, ?_⟩
    · simp [collectResources, hz, not_le.mpr h1, not_le.mpr h2]
    · simp [collectResources, hz, not_le.mpr h1, not_le.mpr h2]
    · intro t
      simp only [collectResources, hz, not_le.mpr h1, not_le.mpr h2,
        if_neg (not_le.mpr h1), if_neg (not_le.mpr h2)]
      cases t <;> cases hzt : z.resourceType <;>
        simp [addResources, singleResourceCost, ResourceInventory.get, hzt]

/-- Concrete run of claim C7: a wood zone of amount 50, fraction `1/5`,
collects `⌊50 · (1/5)⌋ = 10` and reports success. -/
theorem collectResources_witness :
    (1/10 : ℚ) ≤ 1/5 ∧ (1/5 : ℚ) < 3/10 ∧
    (0 : Int) < 50 ∧ 0 < ⌊(50 : ℚ) * (1/5)⌋ ∧
    (collectResources ("zoneA") (1/5) 42 woodZoneState).2 = true := by
  have hfloor : (0 : Int) < ⌊(50 : ℚ) * (1/5)⌋ := by norm_num
  refine ⟨by norm_num, by norm_num, by norm_num, hfloor, ?_⟩
  exact (collectResources_spec woodZoneState ("zoneA") (1/5) 42
    ⟨"zoneA", .wood, 50, 10, 0⟩ ⟨by norm_num, by norm_num⟩ rfl).2.2
    (by norm_num) hfloor |>.1

/-- Regeneration keeps a zone's amount within `[0, 2 · baseAmount]`. -/
theorem regenerateZone_bounds (now : Nat) (z : ResourceZone)
    (h : 0 ≤ z.amount ∧
      z.amount ≤ 2 * (getResourceBaseAmount z.resourceType : Int)) :
    0 ≤ (regenerateZone now z).amount ∧
      (regenerateZone now z).amount ≤
        2 * (getResourceBaseAmount (regenerateZone now z).resourceType : Int) := by
  simp only [regenerateZone]
  split
  case isTrue hh =>
    simp only
    constructor
    · apply le_min
      · apply add_nonneg h.1
        apply Int.floor_nonneg.mpr
        exact mul_nonneg (Nat.cast_nonneg _) (le_trans zero_le_one hh)
      · positivity
    · rw [mul_comm (2 : Int)]
      exact min_le_right _ _
  case isFalse => exact h

/-- A collection keeps every stored zone's amount within
`[0, 2 · baseAmount]`, for any drawn fraction below one. -/
theorem collectResources_zonesInv {s : GameState} {hexagonId : String}
    {q : ℚ} {now : Nat} (hq : q < 1) (h : ZonesInv s) :
    ZonesInv (collectResources hexagonId q now s).1 := by
  unfold collectResources
  cases hfind : s.zones.find? (fun w => w.id == hexagonId) with
  | none => simpa using h
  | some z =>
    have hzmem : z ∈ s.zones := List.mem_of_find?_eq_some hfind
    by_cases h1 : z.amount ≤ 0
    · simpa [h1] using h
    · by_cases h2 : ⌊(z.amount : ℚ) * q⌋ ≤ 0
      · simpa [h1, h2] using h
      · have hc : 0 < ⌊(z.amount : ℚ) * q⌋ := lt_of_not_le h2
        have ha : 0 < z.amount := lt_of_not_le h1
        have hlt : ⌊(z.amount : ℚ) * q⌋ < z.amount := by
          have hmul : (z.amount : ℚ) * q < (z.amount : ℚ) := by
            have hz0 : (0 : ℚ) < (z.amount : ℚ) := by exact_mod_cast ha
            calc (z.amount : ℚ) * q < (z.amount : ℚ) * 1 :=
                  mul_lt_mul_of_pos_left hq hz0
              _ = (z.amount : ℚ) := mul_one _
          have := lt_of_le_of_lt (Int.floor_le ((z.amount : ℚ) * q)) hmul
          exact_mod_cast this
        simp only [h1, h2, if_neg, if_false, ite_false]
        intro w hw
        simp only [List.mem_map] at hw
        obtain ⟨u, hu, rfl⟩ := hw
        by_cases hid : u.id == hexagonId
        · have hz := h z hzmem
          simp only [hid, if_true, ite_true]
          constructor
          · omega
          · have := hz.2
            omega
        · simpa [hid] using h u hu

/-- A maintenance tick keeps every stored zone's amount within
`[0, 2 · baseAmount]`. -/
theorem maintenanceTick_zonesInv {s : GameState} {now : Nat}
    (h : ZonesInv s) : ZonesInv (maintenanceTick now s) := by
  have hz : (maintenanceTick now s).zones = s.zones.map (regenerateZone now) := by
    unfold maintenanceTick
    cases hb : s.player.baseHexagon <;> cases hr : s.player.resources
    · simp [hb, hr]
    · simp [hb, hr]
    · simp [hb, hr]
    · simp only [hb, hr]
      split <;> rfl
  intro w hw
  rw [hz] at hw
  simp only [List.mem_map] at hw
  obtain ⟨u, hu, rfl⟩ := hw
  exact regenerateZone_bounds now u (h u hu)

/-- Claim C3: after any finite sequence of collections and maintenance
ticks — each collection drawing a fraction below one — every stored zone's
amount stays within `[0, 2 · baseAmount(resourceType)]`. -/
theorem runOps_zonesInv (ops : List GameOp) (s : GameState)
    (hv : ∀ op ∈ ops, op.valid) (h : ZonesInv s) :
    ZonesInv (runOps ops s) := by
  induction ops generalizing s with
  | nil => exact h
  | cons op rest ih =>
    have hstep : ZonesInv (applyOp op s) := by
      cases op with
      | collect hexagonId rate now =>
        exact collectResources_zonesInv
          (hv _ (List.mem_cons_self _ _)) h
      | tick now => exact maintenanceTick_zonesInv h
    exact ih (applyOp op s) (fun o ho => hv o (List.mem_cons_of_mem _ ho)) hstep

/-- Concrete run of claim C3: a collection at fraction `1/5` followed by a
two-hour tick keeps the single wood zone inside its `[0, 100]` bound. -/
theorem runOps_zonesInv_witness :
    (∀ op ∈ [GameOp.collect ("zoneA") (1/5) 1000, GameOp.tick 7200000],
      op.valid) ∧
    ZonesInv woodZoneState ∧
    ZonesInv (runOps [GameOp.collect ("zoneA") (1/5) 1000,
      GameOp.tick 7200000] woodZoneState) := by
  have hv : ∀ op ∈ [GameOp.collect ("zoneA") (1/5) 1000,
      GameOp.tick 7200000], op.valid := by
    intro op hop
    simp only [List.mem_cons, List.not_mem_nil, or_false] at hop
    rcases hop with rfl | rfl
    · show (1/5 : ℚ) < 1
      norm_num
    · trivial
  have h0 : ZonesInv woodZoneState := by
    intro z hz
    simp only [woodZoneState] at hz
    rw [List.mem_singleton] at hz
    subst hz
    decide
  exact ⟨hv, h0, runOps_zonesInv _ woodZoneState hv h0⟩

/-- Claim C1, evaluated on the scenario: the first conquest of an
unconquered cell with inventory `{50, 30, 40}` reports success and marks
the cell conquered, and the second attempt fails leaving the state
untouched — but the inventory after the first call is still `{50, 30, 40}`
(the final score update rebuilds the player from the pre-debit snapshot),
not the `{40, 25, 32}` the scenario requires. -/
theorem conquer_twice_run :
    (conquerCurrentHexagon 1000 conquestState).2 = true ∧
    ((conquerCurrentHexagon 1000 conquestState).1.hexagons ("cell-0")).map
        HexagonData.conquered = some true ∧
    (conquerCurrentHexagon 1000 conquestState).1.player.resources =
        some ⟨50, 30, 40⟩ ∧
    (conquerCurrentHexagon 1000 conquestState).1.player.score = 110 ∧
    conquerCurrentHexagon 2000 (conquerCurrentHexagon 1000 conquestState).1 =
        ((conquerCurrentHexagon 1000 conquestState).1, false) := by
  refine ⟨rfl, rfl, rfl, ?_, rfl⟩
  show max (0 : ℚ) (100 + 10) = 110
  norm_num

/-- Claim C5, evaluated on a conquered cell with inventory `{30, 20, 25}`:
establishment succeeds, debits exactly the cost, and records the player's
base cell — but the territory store is left unchanged and holds no base:
the constructed level-1 base object is never saved. -/
theorem establishBase_run :
    (establishBase ("cell-1") 0 establishState).2 = true ∧
    (establishBase ("cell-1") 0 establishState).1.player.resources =
        some ⟨0, 0, 0⟩ ∧
    (establishBase ("cell-1") 0 establishState).1.player.baseHexagon =
        some ("cell-1") ∧
    (establishBase ("cell-1") 0 establishState).1.hexagons =
        establishState.hexagons ∧
    ((establishBase ("cell-1") 0 establishState).1.hexagons ("cell-1")).bind
        HexagonData.base = none :=
  ⟨rfl, rfl, rfl, rfl, rfl⟩

/-- Claim C6, evaluated on an owned level-1 base with inventory
`{50, 30, 40}`: the upgrade succeeds and debits exactly the cost, but the
stored base record is untouched — its level remains 1, not 2. -/
theorem upgradeBase_run :
    (upgradeBase ("cell-1") upgradeState).2 = true ∧
    (upgradeBase ("cell-1") upgradeState).1.player.resources =
        some ⟨0, 0, 0⟩ ∧
    (upgradeBase ("cell-1") upgradeState).1.hexagons = upgradeState.hexagons ∧
    (((upgradeBase ("cell-1") upgradeState).1.hexagons ("cell-1")).bind
        HexagonData.base).map PlayerBase.level = some 1 :=
  ⟨rfl, rfl, rfl, rfl⟩

/-- Counterexample to claim C9: an infinite latitude passes the `isNaN`
coordinate validation, so the failure — if any — is not the
invalid-coordinate error. -/
theorem getH3Index_posInf_counterexample :
    getH3Index JSNum.posInf (JSNum.finite 0) 9 ≠
      Except.error H3Error.invalidCoordinates := by
  simp [getH3Index, latLngToCell, JSNum.isNaN]

/-- Claim C9 as amended: `getH3Index` fails with the invalid-coordinate
error exactly on NaN coordinates (an infinite coordinate is not caught by
the validation and reaches the underlying index); for numeric (non-NaN)
coordinates it fails with the invalid-resolution error when the resolution
lies outside the index's supported range `0..15`; and for real coordinates
at an in-range resolution it returns a cell identifier. -/
theorem getH3Index_spec (lat lng : JSNum) (resolution : Int) :
    ((lat.isNaN || lng.isNaN) = true →
      getH3Index lat lng resolution = .error .invalidCoordinates) ∧
    ((lat.isNaN || lng.isNaN) = false →
      (resolution < 0 ∨ 15 < resolution) →
      getH3Index lat lng resolution = .error .invalidResolution) ∧
    (∀ a b, lat = .finite a → lng = .finite b →
      0 ≤ resolution → resolution ≤ 15 →
      ∃ h3Index, getH3Index lat lng resolution = .ok h3Index) := by
  refine ⟨fun h => ?_, fun h hr => ?_, fun a b ha hb h0 h15 => ?_⟩
  · simp [getH3Index, h]
  · have hcond : (decide (resolution < 0) || decide (15 < resolution)) = true := by
      rcases hr with hr | hr <;> simp [hr]
    simp [getH3Index, h, hcond]
  · subst ha hb
    refine ⟨"cell", ?_⟩
    simp [getH3Index, JSNum.isNaN, latLngToCell, not_lt.mpr h0,
      not_lt.mpr h15]
    decide

/-- Concrete runs of the amended claim C9: a NaN latitude is an invalid
coordinate, resolution 99 is an invalid resolution, and real coordinates
at resolution 9 produce a cell identifier. -/
theorem getH3Index_witness :
    getH3Index JSNum.nan (JSNum.finite 0) 9 =
        .error .invalidCoordinates ∧
      getH3Index (JSNum.finite 1) (JSNum.finite 2) 99 =
        .error .invalidResolution ∧
      ∃ h3Index, getH3Index (JSNum.finite 1) (JSNum.finite 2) 9 =
        .ok h3Index :=
  ⟨(getH3Index_spec JSNum.nan (JSNum.finite 0) 9).1 (by decide),
    (getH3Index_spec (JSNum.finite 1) (JSNum.finite 2) 99).2.1 (by decide)
      (Or.inr (by decide)),
    (getH3Index_spec (JSNum.finite 1) (JSNum.finite 2) 9).2.2 1 2 rfl rfl
      (by decide) (by decide)⟩
